/-
Verification of the BRAINMATE-X-CHESS hierarchical task network.

Shallow embedding of `task-network.py` (class `ChessTaskNetwork`) and of the
`ChessAgent` wrapper (`agent-class.py`).  The two external collaborators that
the spec excludes from the core are modelled as oracles:

* the rules collaborator (the `chess` library: boards, legal moves, capture
  and check detection, notation conversion) becomes the `BoardModel`
  structure, whose fields are the exact queries the core performs on a board;
* the evaluation collaborator (the UCI engine behind
  `chess.engine.SimpleEngine`) becomes the `Oracles` structure.

Python-specific behaviour is embedded explicitly: `sorted(key=..,
reverse=True)` is a stable descending sort (`pySortDesc`, an insertion sort
producing the same list as any stable sort), `"kw" in s` is substring
containment (`pyContains`), `int(s)` is `pyInt` (returning `none` where
Python raises `ValueError`), dictionary access of a possibly missing key and
`result[0]` on an empty engine answer raise, which is modelled with
`Except RErr`.
-/
import Mathlib

namespace BrainMate

/-! ## Python string primitives -/

/-- `leadsWith p l` is true iff `p` is an initial segment of `l`. -/
def leadsWith : List Char → List Char → Bool
  | [], _ => true
  | _ :: _, [] => false
  | a :: as, b :: bs => a == b && leadsWith as bs

/-- `containsFrom needle hay`: does `needle` occur contiguously in `hay`? -/
def containsFrom (needle : List Char) : List Char → Bool
  | [] => needle.isEmpty
  | c :: rest => leadsWith needle (c :: rest) || containsFrom needle rest

/-- Python `sub in s` on strings: substring containment. -/
def pyContains (s sub : String) : Bool :=
  containsFrom sub.toList s.toList

/-- Python `s.lower()` (the queries and keywords here are ASCII). -/
def pyLower (s : String) : String :=
  ⟨s.toList.map Char.toLower⟩

/-- Strip leading and trailing whitespace from a character list. -/
def stripChars (l : List Char) : List Char :=
  ((l.dropWhile Char.isWhitespace).reverse.dropWhile Char.isWhitespace).reverse

/-- Python `s.strip()`. -/
def pyStrip (s : String) : String :=
  ⟨stripChars s.toList⟩

/-- Helper for `pySplit`: accumulate the current word (reversed) while
scanning. -/
def splitWSAux : List Char → List Char → List String
  | [], acc => if acc.isEmpty then [] else [⟨acc.reverse⟩]
  | c :: rest, acc =>
    if c.isWhitespace then
      if acc.isEmpty then splitWSAux rest []
      else ⟨acc.reverse⟩ :: splitWSAux rest []
    else splitWSAux rest (c :: acc)

/-- Python `s.split()` with no argument: split on whitespace runs, dropping
empty pieces. -/
def pySplit (s : String) : List String :=
  splitWSAux s.toList []

/-- Digit-list to number; `none` if empty or any non-digit occurs. -/
def digitsToNat : List Char → Option Nat
  | [] => none
  | l => l.foldlM (fun acc c => if c.isDigit then some (acc * 10 + (c.toNat - 48)) else none) 0

/-- Python `int(s)` on the score strings this program feeds it: optional
surrounding whitespace, an optional sign, then decimal digits.  `none` models
the `ValueError` branch (in particular for mate scores such as `"#+3"`). -/
def pyInt (s : String) : Option Int :=
  match stripChars s.toList with
  | '+' :: ds => (digitsToNat ds).map (fun n => (n : Int))
  | '-' :: ds => (digitsToNat ds).map (fun n => -(n : Int))
  | ds => (digitsToNat ds).map (fun n => (n : Int))

/-! ## Python `sorted(key=priority, reverse=True)`

Python's `sorted` is a stable sort; with `reverse=True` equal keys keep their
original relative order.  Any stable descending sort returns the same list,
so we embed it as a stable insertion sort: an element is inserted before the
first earlier-inserted element whose key is `≤` its own. -/

/-- Insert `a` into `s` before the first element with key `≤ key a`.
When `s` is descending this keeps it descending, and keeps equal-key
elements in their pre-insertion order relative to `a`. -/
def insertByDesc (key : α → Int) (a : α) : List α → List α
  | [] => [a]
  | b :: t => if key b ≤ key a then a :: b :: t else b :: insertByDesc key a t

/-- Stable descending sort — the embedding of `sorted(xs, key=key, reverse=True)`. -/
def pySortDesc (key : α → Int) : List α → List α
  | [] => []
  | a :: t => insertByDesc key a (pySortDesc key t)

/-- First element of the list attaining the maximal key (ties won by the
earlier element).  Used to characterise the head of `pySortDesc`. -/
def firstMaxBy (key : α → Int) : List α → Option α
  | [] => none
  | a :: t =>
    match firstMaxBy key t with
    | none => some a
    | some m => if key a < key m then some m else some a

/-! ## Chess data model (rules-collaborator side) -/

/-- Piece kinds, as in the `chess` library. -/
inductive PieceType where
  | pawn | knight | bishop | rook | queen | king
  deriving DecidableEq, Repr

/-- A piece: colour (`true` = white, matching `chess.WHITE = True`) and kind. -/
structure Piece where
  color : Bool
  ptype : PieceType
  deriving DecidableEq, Repr

/-- The material table shared by `_count_material` and `_identify_tactics`
(the source duplicates the identical dict in both places). -/
def pieceValue : PieceType → Int
  | .pawn => 1
  | .knight => 3
  | .bishop => 3
  | .rook => 5
  | .queen => 9
  | .king => 0

/-- `_piece_name`: "`<colour> <kind>`", or `"empty square"` for `None`. -/
def piece_name : Option Piece → String
  | none => "empty square"
  | some p =>
    (if p.color then "white" else "black") ++ " " ++
      (match p.ptype with
       | .pawn => "pawn" | .knight => "knight" | .bishop => "bishop"
       | .rook => "rook" | .queen => "queen" | .king => "king")

/-- A move: origin and destination squares (0 = a1 … 63 = h8, as in the
`chess` library) plus its long-form (UCI) rendering `move.uci()`. -/
structure Move where
  from_sq : Nat
  to_sq : Nat
  uci : String
  deriving DecidableEq, Repr

/-- `chess.square_rank`, as a `Python int`: rank index 0‥7.  It is an `Int`
because the code compares it against `promotion_rank - 1`, which is `-1` for
black. -/
def squareRank (sq : Nat) : Int := ((sq / 8 : Nat) : Int)

/-- The board oracle: exactly the queries `ChessTaskNetwork` performs on a
`chess.Board`.  `captured_piece` is the rules-collaborator notion of the
piece a capturing move removes; for every capture except en passant it sits
on the destination square, for en passant `piece_at to_sq` is `none` while
`captured_piece` is the adjacent pawn.  The code under verification never
calls `captured_piece`; it is the claim-side notion used by C4. -/
structure BoardModel where
  legal_moves : List Move
  piece_at : Nat → Option Piece
  is_capture : Move → Bool
  /-- `board.copy(); push(move); is_check()` -/
  gives_check : Move → Bool
  san : Move → String
  parse_san : String → Option Move
  captured_piece : Move → Option Piece
  /-- `board.pieces(piece_type, color)` as a square list. -/
  piecesOf : PieceType → Bool → List Nat
  king_sq : Bool → Option Nat
  has_castling : Bool → Bool
  turn : Bool
  fullmove_number : Nat
  halfmove_clock : Nat

/-- `bin(board.occupied).count("1")`: the number of occupied squares. -/
def occupiedCount (b : BoardModel) : Nat :=
  (List.range 64).countP (fun s => (b.piece_at s).isSome)

/-- One entry of an engine answer: principal variation and the rendered
relative score (`str(info["score"].relative)`). -/
structure PvInfo where
  pv : List Move
  score : String
  deriving DecidableEq, Repr

/-- The evaluation collaborator plus board construction and board-independent
notation parsing. -/
structure Oracles where
  /-- `chess.Board(fen)` -/
  board : String → BoardModel
  /-- `engine.analyse(board, Limit(time=0.2), multipv=3)` -/
  analyseMulti : BoardModel → List PvInfo
  /-- `engine.analyse(board, Limit(...))` without `multipv` -/
  analyseSingle : BoardModel → PvInfo
  /-- `engine.analyse(board_after_move, Limit(...))` for the pushed board -/
  analyseAfter : BoardModel → Move → PvInfo
  /-- `chess.Move.from_uci` (`none` models `ValueError`) -/
  move_from_uci : String → Option Move

/-! ## Core data model -/

/-- `ChessGoal.__init__` state.  `completed`/`progress` are set by the
constructor (`False`, `0.0`) and never mutated or read by the core. -/
structure Goal where
  description : String
  priority : Int
  move_sequence : List String
  completed : Bool
  progress : Rat
  deriving DecidableEq, Repr

/-- The `ChessGoal` constructor: `move_sequence=None` defaults to `[]`
(call sites pass `[]` explicitly here). -/
def ChessGoal (description : String) (priority : Int) (move_sequence : List String) : Goal :=
  ⟨description, priority, move_sequence, false, 0⟩

/-- The three goal tiers held on the `ChessTaskNetwork` instance. -/
structure GoalTiers where
  long_term : List Goal
  medium_term : List Goal
  short_term : List Goal
  deriving DecidableEq, Repr

/-- The dict returned by `get_best_plan`; `Option` fields model keys that are
present only on some branches (`plan["immediate_action"]` raises `KeyError`
when the field is `none`). -/
structure Plan where
  description : String
  immediate_action : Option String
  moves : List String
  reasoning : Option String
  deriving DecidableEq, Repr

/-- A tactic record from `_identify_tactics`. -/
structure Tactic where
  description : String
  moves : List String
  priority : Int
  deriving DecidableEq, Repr

/-- Runtime errors of the embedded Python: missing dict key, indexing an
empty list, attribute access on `None`. -/
inductive RErr where
  | keyError | indexError | attrError
  deriving DecidableEq, Repr

/-- The tagged response dicts produced by `process_natural_language`;
`Option` fields are keys present only on some branches. -/
inductive Response where
  | move_recommendation (content reasoning : String) (strategy : Option String)
  | strategy_advice (content : String) (additional_options : Option (List String))
  | tactical_advice (content : String) (moves : Option (List String))
  | position_evaluation (evaluation position_type suggested_approach : String)
  | move_explanation (move explanation evaluation_before evaluation_after : String)
  | error_resp (content : String)
  deriving DecidableEq, Repr

/-- Result of `ChessAgent.process_request`: either the bare error dict
(empty-position branch) or the `{"raw": ..., "formatted": ...}` wrapper. -/
inductive AgentResult where
  | direct (r : Response)
  | wrapped (raw : Response) (formatted : String)
  deriving DecidableEq, Repr

/-- Decidable equality for `Except`, so that concrete runs of the embedded
fallible functions can be checked by `decide`. -/
instance exceptDecEq [DecidableEq ε] [DecidableEq α] : DecidableEq (Except ε α)
  | .error a, .error b =>
    if h : a = b then .isTrue (by rw [h])
    else .isFalse (fun hh => h (Except.error.inj hh))
  | .error _, .ok _ => .isFalse (fun hh => Except.noConfusion hh)
  | .ok _, .error _ => .isFalse (fun hh => Except.noConfusion hh)
  | .ok a, .ok b =>
    if h : a = b then .isTrue (by rw [h])
    else .isFalse (fun hh => h (Except.ok.inj hh))

/-! ## Embedded core functions (`ChessTaskNetwork`) -/

/-- The short-term-goal loop of `analyze_position`: one goal per engine line,
description `"Play <san>"`, priority `3 - rank`, move sequence `[uci]`.
`pv_info["pv"][0]` on an empty principal variation raises, hence `Except`. -/
def shortGoalsOf (b : BoardModel) : List PvInfo → Nat → Except RErr (List Goal)
  | [], _ => .ok []
  | info :: rest, i =>
    match info.pv with
    | [] => .error .indexError
    | m :: _ =>
      match shortGoalsOf b rest (i + 1) with
      | .error e => .error e
      | .ok gs => .ok (ChessGoal ("Play " ++ b.san m) (3 - (i : Int)) [m.uci] :: gs)

/-- `_identify_medium_term_goals`: centre control, development, castling. -/
def identify_medium_term_goals (b : BoardModel) : List Goal :=
  -- 1. control the center: pieces of the side to move on E4, D4, E5, D5
  let center_squares : List Nat := [28, 27, 36, 35]
  let controlled_center := center_squares.countP
    (fun sq => match b.piece_at sq with
               | some p => p.color == b.turn
               | none => false)
  let g1 := if controlled_center < 2 then
      [ChessGoal "Control the center with pawns or pieces" 5 []] else []
  -- 2. develop pieces (only when fullmove_number ≤ 10)
  let g2 :=
    if b.fullmove_number ≤ 10 then
      let starting : List Nat := if b.turn then [1, 6, 2, 5] else [57, 62, 58, 61]
      let developed_pieces :=
        (b.piecesOf PieceType.knight b.turn).countP (fun sq => !starting.contains sq) +
        (b.piecesOf PieceType.bishop b.turn).countP (fun sq => !starting.contains sq)
      if developed_pieces < 4 then [ChessGoal "Develop minor pieces" 4 []] else []
    else []
  -- 3. castle if the king is on its home square and castling rights remain
  let g3 :=
    if (b.turn && b.king_sq b.turn == some 4) || (!b.turn && b.king_sq b.turn == some 60) then
      if b.has_castling b.turn then [ChessGoal "Castle to safety" 6 []] else []
    else []
  g1 ++ g2 ++ g3

/-- `_count_material`: material sum over pawn/knight/bishop/rook/queen. -/
def count_material (b : BoardModel) (color : Bool) : Int :=
  ([PieceType.pawn, PieceType.knight, PieceType.bishop, PieceType.rook, PieceType.queen].map
    (fun t => ((b.piecesOf t color).length : Int) * pieceValue t)).sum

/-- `_identify_long_term_goals`.  The `try: int(evaluation) ... except
ValueError: pass` in the endgame branch is the `pyInt` match: a score that
does not parse simply skips the "Exchange pieces but not pawns" goal. -/
def identify_long_term_goals (b : BoardModel) (evaluation : String) : List Goal :=
  let total_pieces := occupiedCount b
  if total_pieces > 24 then
    [ChessGoal "Develop pieces and control the center" 8 [],
     ChessGoal "Ensure king safety" 7 []]
  else if total_pieces > 10 then
    let white_material := count_material b true
    let black_material := count_material b false
    let advantage0 := white_material - black_material
    let advantage := if b.turn then advantage0 else -advantage0
    if advantage > 3 then
      [ChessGoal "Trade pieces to simplify into a winning endgame" 8 []]
    else if advantage < -3 then
      [ChessGoal "Create complications and tactical opportunities" 8 []]
    else
      [ChessGoal "Improve piece positioning and create weaknesses in opponent\x27s camp" 7 []]
  else
    ChessGoal "Activate king and create passed pawns" 8 [] ::
      (match pyInt evaluation with
       | some v => if v > 200 then [ChessGoal "Exchange pieces but not pawns" 7 []] else []
       | none => [])

/-- `analyze_position`: clears the three tiers (the first statements of the
method reassign all of them, so the previous tiers `prev` are never read),
queries the engine once with `multipv=3`, then rebuilds short, medium and
long tiers.  `result[0]` on an empty engine answer raises `IndexError`. -/
def analyze_position (orc : Oracles) (prev : GoalTiers) (fen : String) :
    Except RErr GoalTiers :=
  let b := orc.board fen
  let result := orc.analyseMulti b
  match shortGoalsOf b result 0 with
  | .error e => .error e
  | .ok shorts =>
    let meds := identify_medium_term_goals b
    match result with
    | [] => .error .indexError
    | info0 :: _ =>
      .ok { long_term := identify_long_term_goals b info0.score
            medium_term := meds
            short_term := shorts }

/-- `_generate_reasoning` (the `move` argument is unused in the source too). -/
def generate_reasoning (strategy : String) (move : String) : String :=
  "This move supports our strategy to " ++ pyLower strategy ++
    " by making immediate progress."

/-- The `{"description": "No clear plan identified", "moves": []}` sentinel. -/
def noPlanSentinel : Plan := ⟨"No clear plan identified", none, [], none⟩

/-- The `{"description": "No clear moves identified", "moves": []}` sentinel. -/
def noMovesSentinel : Plan := ⟨"No clear moves identified", none, [], none⟩

/-- `self.long_term_goals[0].description if self.long_term_goals else
"No specific strategy"`. -/
def plan_strategy (st : GoalTiers) : String :=
  match st.long_term with
  | g :: _ => g.description
  | [] => "No specific strategy"

/-- `get_best_plan`. -/
def get_best_plan (st : GoalTiers) : Plan :=
  let all_goals := st.long_term ++ st.medium_term ++ st.short_term
  let sorted_goals := pySortDesc Goal.priority all_goals
  if sorted_goals.isEmpty then noPlanSentinel
  else
    let immediate_moves := st.short_term.filter (fun g => !g.move_sequence.isEmpty)
    match pySortDesc Goal.priority immediate_moves with
    | top :: _ =>
      ⟨plan_strategy st, some top.description, top.move_sequence,
        some (generate_reasoning (plan_strategy st) top.description)⟩
    | [] => noMovesSentinel

/-- The check pass of `_identify_tactics`: every legal move that gives check
yields a priority-5 tactic, in legal-move order. -/
def check_tactics (b : BoardModel) : List Tactic :=
  (b.legal_moves.filter b.gives_check).map
    (fun m => ⟨"Check with " ++ b.san m, [m.uci], 5⟩)

/-- The capture pass of `_identify_tactics`.  `captured_piece = piece_at(to)`
and the `if captured_piece:` guard skips the move when that square is empty
(the en-passant case); `attacker.piece_type` on a `None` attacker would raise
`AttributeError`. -/
def capture_tactics (b : BoardModel) : List Move → Except RErr (List Tactic)
  | [] => .ok []
  | m :: rest =>
    if b.is_capture m then
      match b.piece_at m.to_sq with
      | some cap =>
        match b.piece_at m.from_sq with
        | some att =>
          match capture_tactics b rest with
          | .error e => .error e
          | .ok ts =>
            if pieceValue att.ptype ≤ pieceValue cap.ptype then
              .ok (⟨"Capture " ++ piece_name (some cap) ++ " with " ++ b.san m,
                    [m.uci], pieceValue cap.ptype⟩ :: ts)
            else .ok ts
        | none => .error .attrError
      | none => capture_tactics b rest
    else capture_tactics b rest

/-- `_identify_tactics`: check pass, then capture pass, then a stable
descending sort by priority. -/
def identify_tactics (b : BoardModel) : Except RErr (List Tactic) :=
  match capture_tactics b b.legal_moves with
  | .error e => .error e
  | .ok caps => .ok (pySortDesc Tactic.priority (check_tactics b ++ caps))

/-- Pawns of either colour on D4, E4, D5, E5. -/
def center_pawn_count (b : BoardModel) : Nat :=
  ([27, 28, 35, 36] : List Nat).countP
    (fun sq => match b.piece_at sq with
               | some p => p.ptype == PieceType.pawn
               | none => false)

/-- `_determine_position_type`. -/
def determine_position_type (b : BoardModel) : String :=
  let center_pawns := center_pawn_count b
  let total_pieces := occupiedCount b
  if center_pawns ≤ 1 then "Open position"
  else if center_pawns ≥ 3 then "Closed position"
  else if total_pieces ≤ 10 then "Endgame position"
  else if b.fullmove_number > 10 && b.halfmove_clock < 3 then "Tactical position"
  else "Semi-open position"

/-- The threshold chain of `_suggest_approach`, applied once `eval_int` is
known (`0` after a non-mate parse failure, as in the source). -/
def suggestFromInt (eval_int : Int) (position_type : String) : String :=
  if |eval_int| < 30 then
    if pyContains position_type "Open" then
      "The position is roughly equal and open. Focus on piece activity and creating imbalances."
    else if pyContains position_type "Closed" then
      "The position is roughly equal but closed. Consider a positional maneuver or breakthrough."
    else if pyContains position_type "Tactical" then
      "The position is balanced but tactical. Look for combinations and tactical opportunities."
    else
      "The position is balanced. Focus on improving your worst-placed piece."
  else if eval_int > 200 then
    "You have a significant advantage. Simplify the position and avoid unnecessary complications."
  else if eval_int < -200 then
    "You are at a disadvantage. Create complications and look for tactical chances."
  else if eval_int > 0 then
    "You have a slight advantage. Focus on incrementally improving your position."
  else
    "You have a slight disadvantage. Focus on equalizing the position through careful defense."

/-- `_suggest_approach`: try `int(...)`; on failure a `"#"` in the score
short-circuits to the forced-mate message, otherwise `eval_int = 0`. -/
def suggest_approach (evaluation : String) (position_type : String) : String :=
  match pyInt evaluation with
  | some v => suggestFromInt v position_type
  | none =>
    if pyContains evaluation "#" then
      "There\x27s a forced mate. Follow the tactical sequence."
    else suggestFromInt 0 position_type

/-- `_explain_move`.  The clause order is fixed by the source: capture or
reposition, check, centre control, promotion proximity, development.  For a
black pawn `promotion_rank = 0`, so the promotion test compares the
destination rank with `-1`. -/
def explain_move (orc : Oracles) (b : BoardModel) (m : Move) : Response :=
  let move_san := b.san m
  let is_cap := b.is_capture m
  let chk := b.gives_check m
  let piece := b.piece_at m.from_sq
  let piece_type := match piece with
    | some p => piece_name (some p)
    | none => "Unknown"
  let e1 := "The move " ++ move_san ++ " "
  let e2 := e1 ++
    (if is_cap then "captures a " ++ piece_name (b.piece_at m.to_sq) ++ ". "
     else "repositions your " ++ piece_type ++ ". ")
  let e3 := e2 ++ (if chk then "It gives check to the opponent\x27s king. " else "")
  let e4 := e3 ++
    (match piece with
     | some p =>
       if p.ptype == PieceType.pawn then
         (if ([27, 28, 35, 36] : List Nat).contains m.to_sq then
            "This move helps control the center. " else "")
         ++ (let promotion_rank : Int := if p.color then 7 else 0
             if squareRank m.to_sq == promotion_rank - 1 then
               "This pawn is now one step away from promotion. " else "")
       else if p.ptype == PieceType.knight || p.ptype == PieceType.bishop then
         (if ([1, 6, 57, 62, 2, 5, 58, 61] : List Nat).contains m.from_sq then
            "This develops a piece from its starting position. " else "")
       else ""
     | none => "")
  let result := orc.analyseAfter b m
  let result_before := orc.analyseSingle b
  .move_explanation move_san (pyStrip e4) result_before.score result.score

/-- The branch cascade of `process_natural_language`, applied to the already
lowercased query and the freshly rebuilt tiers. -/
def dispatch (orc : Oracles) (b : BoardModel) (tiers : GoalTiers) (q : String) :
    Except RErr Response :=
  if pyContains q "best move" || pyContains q "what should i play" ||
      pyContains q "recommend" then
    -- branch 1: move recommendation (with strategy field)
    let plan := get_best_plan tiers
    match plan.immediate_action, plan.reasoning with
    | some content, some reasoning =>
      .ok (.move_recommendation content reasoning (some plan.description))
    | _, _ => .error .keyError
  else if pyContains q "strategy" || pyContains q "plan" then
    -- branch 2: strategic advice
    if tiers.long_term.isEmpty then
      .ok (.strategy_advice "No clear strategic goals identified for this position." none)
    else
      match pySortDesc Goal.priority tiers.long_term with
      | [] => .error .indexError
      | s :: rest => .ok (.strategy_advice s.description (some (rest.map Goal.description)))
  else if pyContains q "tactic" || pyContains q "opportunity" then
    -- branch 3: tactical advice
    match identify_tactics b with
    | .error e => .error e
    | .ok [] => .ok (.tactical_advice "No immediate tactical opportunities found." none)
    | .ok (t :: _) => .ok (.tactical_advice t.description (some t.moves))
  else if pyContains q "evaluate" || pyContains q "assessment" ||
      pyContains q "position" then
    -- branch 4: position evaluation
    let result := orc.analyseSingle b
    let position_type := determine_position_type b
    .ok (.position_evaluation result.score position_type
          (suggest_approach result.score position_type))
  else if pyContains q "explain" && pyContains q "move" then
    -- branch 5: move explanation
    let words := (pySplit q).filter
      (fun w => w.length ≥ 2 && w.toList.any Char.isAlpha && w.toList.any Char.isDigit)
    let parsed := match words with
      | [] => none
      | w :: _ => if w.length == 4 then orc.move_from_uci w else b.parse_san w
    match parsed with
    | some mv => .ok (explain_move orc b mv)
    | none =>
      match (orc.analyseSingle b).pv with
      | [] => .error .indexError
      | best :: _ => .ok (explain_move orc b best)
  else
    -- default branch: move recommendation without the strategy field
    let plan := get_best_plan tiers
    match plan.immediate_action, plan.reasoning with
    | some content, some reasoning =>
      .ok (.move_recommendation content reasoning none)
    | _, _ => .error .keyError

/-- `process_natural_language`: lowercase the query, rebuild the goal tiers
via `analyze_position`, then dispatch.  The returned pair exposes the tiers
the branches read (the instance state after the call) next to the response. -/
def process_natural_language (orc : Oracles) (prev : GoalTiers)
    (fen query : String) : Except RErr (GoalTiers × Response) :=
  let b := orc.board fen
  let q := pyLower query
  match analyze_position orc prev fen with
  | .error e => .error e
  | .ok tiers =>
    match dispatch orc b tiers q with
    | .error e => .error e
    | .ok r => .ok (tiers, r)

/-! ## Embedded agent (`ChessAgent`) -/

/-- Numbered option lines of `_format_response` (`enumerate(options[:2], 1)`). -/
def numberedOptions (i : Nat) : List String → String
  | [] => ""
  | x :: rest => toString i ++ ". " ++ x ++ "\n" ++ numberedOptions (i + 1) rest

/-- `ChessAgent._format_response`. -/
def format_response : Response → String
  | .move_recommendation content reasoning strategy =>
    "I recommend: " ++ content ++ "\n\nReasoning: " ++ reasoning ++
      (match strategy with
       | some s => "\n\nThis supports the strategy: " ++ s
       | none => "")
  | .strategy_advice content opts =>
    "Strategic advice: " ++ content ++
      (match opts with
       | some l => if l.isEmpty then "" else
           "\n\nAlternative strategies to consider:\n" ++ numberedOptions 1 (l.take 2)
       | none => "")
  | .tactical_advice content _ => "Tactical opportunity: " ++ content
  | .position_evaluation evaluation position_type suggested =>
    "Position evaluation: " ++ evaluation ++ "\nPosition type: " ++ position_type ++
      "\n\nSuggested approach: " ++ suggested
  | .move_explanation mv ex before after =>
    "Analysis of " ++ mv ++ ":\n\n" ++ ex ++ "\n\nEvaluation change: " ++
      before ++ " â†’ " ++ after
  | .error_resp content => "Error: " ++ content

/-- `ChessAgent.process_request`: an empty position string returns the error
dict immediately (before the task network or any collaborator is touched);
otherwise the query runs through `process_natural_language` and the result is
wrapped as `{"raw": ..., "formatted": ...}`. -/
def process_request (orc : Oracles) (prev : GoalTiers) (request fen : String) :
    Except RErr AgentResult :=
  if fen.isEmpty then
    .ok (.direct (.error_resp "No chess position provided. Please provide a FEN string."))
  else
    match process_natural_language orc prev fen request with
    | .error e => .error e
    | .ok (_, resp) => .ok (.wrapped resp (format_response resp))

/-! ## Concrete boards and oracles for witnesses and counterexamples -/

/-- Piece placement of a small white-to-move position: white king e1 (4),
white pawn e2 (12), black king e8 (60). -/
def samplePieceAt (sq : Nat) : Option Piece :=
  if sq = 4 then some ⟨true, .king⟩
  else if sq = 12 then some ⟨true, .pawn⟩
  else if sq = 60 then some ⟨false, .king⟩
  else none

/-- The single candidate move of the sample position, e2e4. -/
def sampleMove : Move := ⟨12, 28, "e2e4"⟩

/-- Board oracle for the sample position. -/
def sampleBoard : BoardModel where
  legal_moves := [sampleMove]
  piece_at := samplePieceAt
  is_capture := fun _ => false
  gives_check := fun _ => false
  san := fun _ => "e4"
  parse_san := fun _ => none
  captured_piece := fun _ => none
  piecesOf := fun t c => (List.range 64).filter (fun s => samplePieceAt s == some ⟨c, t⟩)
  king_sq := fun c => if c then some 4 else some 60
  has_castling := fun _ => false
  turn := true
  fullmove_number := 1
  halfmove_clock := 0

/-- Oracles whose engine always proposes e2e4 with score `"+20"`. -/
def sampleOracles : Oracles where
  board := fun _ => sampleBoard
  analyseMulti := fun _ => [⟨[sampleMove], "+20"⟩]
  analyseSingle := fun _ => ⟨[sampleMove], "+20"⟩
  analyseAfter := fun _ _ => ⟨[], "-15"⟩
  move_from_uci := fun _ => none

/-- Goal tiers `analyze_position` builds for the sample position. -/
def sampleTiers : GoalTiers where
  long_term := [ChessGoal "Activate king and create passed pawns" 8 []]
  medium_term := [ChessGoal "Control the center with pawns or pieces" 5 [],
                  ChessGoal "Develop minor pieces" 4 []]
  short_term := [ChessGoal "Play e4" 3 ["e2e4"]]

/-- The branch-1 response for the sample position. -/
def sampleResp : Response :=
  .move_recommendation "Play e4"
    "This move supports our strategy to activate king and create passed pawns by making immediate progress."
    (some "Activate king and create passed pawns")

/-- Piece placement of the en-passant position (FEN
`k7/8/8/4Pp2/8/8/8/K7 w - f6 0 2`, reached after black answered white's
e4-e5 advance with ...f7-f5): white king a1 (0), white pawn e5 (36),
black pawn f5 (37), black king a8 (56). -/
def epPieceAt (sq : Nat) : Option Piece :=
  if sq = 0 then some ⟨true, .king⟩
  else if sq = 36 then some ⟨true, .pawn⟩
  else if sq = 37 then some ⟨false, .pawn⟩
  else if sq = 56 then some ⟨false, .king⟩
  else none

/-- The en-passant capture e5xf6: destination f6 (45) is an EMPTY square,
the captured black pawn stands on f5 (37). -/
def epMove : Move := ⟨36, 45, "e5f6"⟩

/-- Board oracle for the en-passant position.  `is_capture` is true for
e5xf6 (the `chess` library counts en passant as a capture) while
`piece_at 45 = none`; `captured_piece` reports the f5 pawn the move
actually removes. -/
def epBoard : BoardModel where
  legal_moves := [⟨0, 8, "a1a2"⟩, ⟨0, 1, "a1b1"⟩, ⟨0, 9, "a1b2"⟩, ⟨36, 44, "e5e6"⟩, epMove]
  piece_at := epPieceAt
  is_capture := fun m => m.uci == "e5f6"
  gives_check := fun _ => false
  san := fun m =>
    if m.uci == "a1a2" then "Ka2"
    else if m.uci == "a1b1" then "Kb1"
    else if m.uci == "a1b2" then "Kb2"
    else if m.uci == "e5e6" then "e6"
    else "exf6"
  parse_san := fun _ => none
  captured_piece := fun m => if m.uci == "e5f6" then some ⟨false, .pawn⟩ else none
  piecesOf := fun t c => (List.range 64).filter (fun s => epPieceAt s == some ⟨c, t⟩)
  king_sq := fun c => if c then some 0 else some 56
  has_castling := fun _ => false
  turn := true
  fullmove_number := 2
  halfmove_clock := 0

/-- Piece placement of the en-passant-with-check position (FEN
`8/6k1/8/4Pp2/8/8/8/K7 w - f6 0 2`, reached after black answered white's
e4-e5 advance with ...f7-f5 while its king stood on g7): white king a1 (0),
white pawn e5 (36), black pawn f5 (37), black king g7 (54). -/
def epcPieceAt (sq : Nat) : Option Piece :=
  if sq = 0 then some ⟨true, .king⟩
  else if sq = 36 then some ⟨true, .pawn⟩
  else if sq = 37 then some ⟨false, .pawn⟩
  else if sq = 54 then some ⟨false, .king⟩
  else none

/-- The en-passant capture e5xf6: the pawn lands on f6 (45), attacking the
black king on g7 — the move both gives check and captures the f5 pawn; the
destination square f6 itself is EMPTY. -/
def epcMove : Move := ⟨36, 45, "e5f6"⟩

/-- Board oracle for the en-passant-with-check position.  `is_capture` and
`gives_check` are both true for e5xf6 (the `chess` library counts en passant
as a capture, and the pawn on f6 checks the g7 king), while
`piece_at 45 = none`; `captured_piece` reports the f5 pawn the move actually
removes. -/
def epcBoard : BoardModel where
  legal_moves := [⟨0, 8, "a1a2"⟩, ⟨0, 1, "a1b1"⟩, ⟨0, 9, "a1b2"⟩, ⟨36, 44, "e5e6"⟩, epcMove]
  piece_at := epcPieceAt
  is_capture := fun m => m.uci == "e5f6"
  gives_check := fun m => m.uci == "e5f6"
  san := fun m =>
    if m.uci == "a1a2" then "Ka2"
    else if m.uci == "a1b1" then "Kb1"
    else if m.uci == "a1b2" then "Kb2"
    else if m.uci == "e5e6" then "e6"
    else "exf6+"
  parse_san := fun _ => none
  captured_piece := fun m => if m.uci == "e5f6" then some ⟨false, .pawn⟩ else none
  piecesOf := fun t c => (List.range 64).filter (fun s => epcPieceAt s == some ⟨c, t⟩)
  king_sq := fun c => if c then some 0 else some 54
  has_castling := fun _ => false
  turn := true
  fullmove_number := 2
  halfmove_clock := 0

/-- Piece placement of an ordinary favourable capture: white king e1 (4),
white pawn e4 (28), black knight d5 (35), black king e8 (60). -/
def capPieceAt (sq : Nat) : Option Piece :=
  if sq = 4 then some ⟨true, .king⟩
  else if sq = 28 then some ⟨true, .pawn⟩
  else if sq = 35 then some ⟨false, .knight⟩
  else if sq = 60 then some ⟨false, .king⟩
  else none

/-- The capture e4xd5 (pawn takes knight). -/
def capMove : Move := ⟨28, 35, "e4d5"⟩

/-- Board oracle for the pawn-takes-knight position. -/
def capBoard : BoardModel where
  legal_moves := [capMove]
  piece_at := capPieceAt
  is_capture := fun m => m.uci == "e4d5"
  gives_check := fun _ => false
  san := fun _ => "exd5"
  parse_san := fun _ => none
  captured_piece := fun m => if m.uci == "e4d5" then some ⟨false, .knight⟩ else none
  piecesOf := fun t c => (List.range 64).filter (fun s => capPieceAt s == some ⟨c, t⟩)
  king_sq := fun c => if c then some 4 else some 60
  has_castling := fun _ => false
  turn := true
  fullmove_number := 5
  halfmove_clock := 1

/-- Piece placement of a check-and-capture position: white king e1 (4),
white rook d5 (35), black rook d8 (59), black king g8 (62). -/
def qxPieceAt (sq : Nat) : Option Piece :=
  if sq = 4 then some ⟨true, .king⟩
  else if sq = 35 then some ⟨true, .rook⟩
  else if sq = 59 then some ⟨false, .rook⟩
  else if sq = 62 then some ⟨false, .king⟩
  else none

/-- Rxd8+: an equal capture (rook takes rook) that also gives check. -/
def qxMove : Move := ⟨35, 59, "d5d8"⟩

/-- Board oracle for the check-and-capture position. -/
def qxBoard : BoardModel where
  legal_moves := [qxMove]
  piece_at := qxPieceAt
  is_capture := fun m => m.uci == "d5d8"
  gives_check := fun m => m.uci == "d5d8"
  san := fun _ => "Rxd8+"
  parse_san := fun _ => none
  captured_piece := fun m => if m.uci == "d5d8" then some ⟨false, .rook⟩ else none
  piecesOf := fun t c => (List.range 64).filter (fun s => qxPieceAt s == some ⟨c, t⟩)
  king_sq := fun c => if c then some 4 else some 62
  has_castling := fun _ => false
  turn := true
  fullmove_number := 20
  halfmove_clock := 4

/-- The two tactics `_identify_tactics` reports at `qxBoard`, in discovery
order (check pass first, equal priorities stay stable). -/
def qxTactics : List Tactic :=
  [⟨"Check with Rxd8+", ["d5d8"], 5⟩,
   ⟨"Capture black rook with Rxd8+", ["d5d8"], 5⟩]

/-- Piece placement for the C9 failing input: black king h8 (63), black pawn
h3 (23), white king a1 (0).  Black to move. -/
def b9PieceAt (sq : Nat) : Option Piece :=
  if sq = 0 then some ⟨true, .king⟩
  else if sq = 23 then some ⟨false, .pawn⟩
  else if sq = 63 then some ⟨false, .king⟩
  else none

/-- The black pawn push h3-h2: destination rank index 1, one step away from
black's promotion rank 0. -/
def m9 : Move := ⟨23, 15, "h3h2"⟩

/-- Board oracle for the C9 failing input. -/
def b9 : BoardModel where
  legal_moves := [m9]
  piece_at := b9PieceAt
  is_capture := fun _ => false
  gives_check := fun _ => false
  san := fun _ => "h2"
  parse_san := fun _ => none
  captured_piece := fun _ => none
  piecesOf := fun t c => (List.range 64).filter (fun s => b9PieceAt s == some ⟨c, t⟩)
  king_sq := fun c => if c then some 0 else some 63
  has_castling := fun _ => false
  turn := false
  fullmove_number := 40
  halfmove_clock := 3

/-- Oracles for the C9 failing input (scores are irrelevant to the clause). -/
def orc9 : Oracles where
  board := fun _ => b9
  analyseMulti := fun _ => [⟨[m9], "0"⟩]
  analyseSingle := fun _ => ⟨[m9], "0"⟩
  analyseAfter := fun _ _ => ⟨[], "0"⟩
  move_from_uci := fun _ => none

/-- Goal tiers whose short tier carries no move: long-term goal present,
short-term goal with an empty move sequence. -/
def poorTiers : GoalTiers where
  long_term := [ChessGoal "Ensure king safety" 7 []]
  medium_term := []
  short_term := [ChessGoal "Keep the tension" 2 []]

/-- Goal tiers with a priority tie among move-bearing short goals (the two
priority-3 goals), for the planner witness. -/
def tiers3 : GoalTiers where
  long_term := [ChessGoal "Ensure king safety" 7 []]
  medium_term := []
  short_term := [ChessGoal "Play Nf3" 2 ["g1f3"],
                 ChessGoal "Play e4" 3 ["e2e4"],
                 ChessGoal "Play d4" 3 ["d2d4"]]

/-- The empty tier state a fresh `ChessTaskNetwork` starts with. -/
def emptyTiers : GoalTiers := ⟨[], [], []⟩

/-! ## Lemmas about the stable descending sort -/

theorem length_insertByDesc (key : α → Int) (a : α) (s : List α) :
    (insertByDesc key a s).length = s.length + 1 := by
  induction s with
  | nil => rfl
  | cons b t ih =>
    simp only [insertByDesc]
    split
    · simp
    · simp [ih]

theorem length_pySortDesc (key : α → Int) (l : List α) :
    (pySortDesc key l).length = l.length := by
  induction l with
  | nil => rfl
  | cons a t ih => simp [pySortDesc, length_insertByDesc, ih]

theorem pySortDesc_eq_nil_iff (key : α → Int) (l : List α) :
    pySortDesc key l = [] ↔ l = [] := by
  constructor
  · intro h
    have := length_pySortDesc key l
    rw [h] at this
    exact List.length_eq_zero.mp this.symm
  · intro h; subst h; rfl

theorem head?_pySortDesc (key : α → Int) (l : List α) :
    (pySortDesc key l).head? = firstMaxBy key l := by
  induction l with
  | nil => rfl
  | cons a t ih =>
    simp only [pySortDesc, firstMaxBy]
    rw [← ih]
    cases h : pySortDesc key t with
    | nil => simp [insertByDesc]
    | cons b bt =>
      simp only [insertByDesc, List.head?]
      by_cases hk : key b ≤ key a
      · simp [hk, if_neg (not_lt.mpr hk)]
      · simp [hk, if_pos (not_le.mp hk)]

theorem firstMaxBy_eq_none_iff (key : α → Int) (l : List α) :
    firstMaxBy key l = none ↔ l = [] := by
  cases l with
  | nil => simp [firstMaxBy]
  | cons a t =>
    simp only [firstMaxBy]
    constructor
    · intro h
      split at h
      · exact Option.noConfusion h
      · split at h <;> exact Option.noConfusion h
    · intro h
      exact absurd h (List.cons_ne_nil a t)

theorem firstMaxBy_spec (key : α → Int) (l : List α) (m : α)
    (h : firstMaxBy key l = some m) :
    ∃ l₁ l₂, l = l₁ ++ m :: l₂ ∧ (∀ x ∈ l₁, key x < key m) ∧
      (∀ x ∈ l, key x ≤ key m) := by
  induction l generalizing m with
  | nil => simp [firstMaxBy] at h
  | cons a t ih =>
    simp only [firstMaxBy] at h
    split at h
    · rename_i hft
      cases h
      have ht : t = [] := (firstMaxBy_eq_none_iff key t).mp hft
      subst ht
      exact ⟨[], [], rfl, by simp, by simp⟩
    · rename_i m' hft
      by_cases hlt : key a < key m'
      · rw [if_pos hlt] at h
        have hm : m' = m := Option.some.inj h
        subst hm
        obtain ⟨t₁, t₂, heq, hl, hall⟩ := ih m' hft
        refine ⟨a :: t₁, t₂, by simp [heq], ?_, ?_⟩
        · intro x hx
          rcases List.mem_cons.mp hx with rfl | hx
          · exact hlt
          · exact hl x hx
        · intro x hx
          rcases List.mem_cons.mp hx with rfl | hx
          · exact le_of_lt hlt
          · exact hall x hx
      · rw [if_neg hlt] at h
        have hm : a = m := Option.some.inj h
        subst hm
        obtain ⟨t₁, t₂, heq, hl, hall⟩ := ih m' hft
        refine ⟨[], t, rfl, by simp, ?_⟩
        intro x hx
        rcases List.mem_cons.mp hx with rfl | hx
        · exact le_refl _
        · exact le_trans (hall x hx) (not_lt.mp hlt)

theorem mem_insertByDesc (key : α → Int) (a x : α) (s : List α) :
    x ∈ insertByDesc key a s ↔ x = a ∨ x ∈ s := by
  induction s with
  | nil => simp [insertByDesc]
  | cons b t ih =>
    simp only [insertByDesc]
    split
    · simp only [List.mem_cons]
    · simp only [List.mem_cons, ih]
      tauto

theorem mem_pySortDesc (key : α → Int) (x : α) (l : List α) :
    x ∈ pySortDesc key l ↔ x ∈ l := by
  induction l with
  | nil => simp [pySortDesc]
  | cons a t ih => simp [pySortDesc, mem_insertByDesc, ih]

theorem pairwise_insertByDesc (key : α → Int) (a : α) (s : List α)
    (h : s.Pairwise (fun u v => key v ≤ key u)) :
    (insertByDesc key a s).Pairwise (fun u v => key v ≤ key u) := by
  induction s with
  | nil => simp [insertByDesc]
  | cons b t ih =>
    simp only [insertByDesc]
    rcases List.pairwise_cons.mp h with ⟨hb, ht⟩
    split
    · rename_i hba
      refine List.pairwise_cons.mpr ⟨?_, h⟩
      intro x hx
      rcases List.mem_cons.mp hx with rfl | hx
      · exact hba
      · exact le_trans (hb x hx) hba
    · rename_i hba
      refine List.pairwise_cons.mpr ⟨?_, ih ht⟩
      intro x hx
      rcases (mem_insertByDesc key a x t).mp hx with rfl | hx
      · exact le_of_lt (not_le.mp hba)
      · exact hb x hx

theorem pairwise_pySortDesc (key : α → Int) (l : List α) :
    (pySortDesc key l).Pairwise (fun u v => key v ≤ key u) := by
  induction l with
  | nil => simp [pySortDesc]
  | cons a t ih => exact pairwise_insertByDesc key a _ ih

theorem filter_insertByDesc (key : α → Int) (p : Int) (a : α) (s : List α) :
    (insertByDesc key a s).filter (fun x => key x == p) =
      if key a == p then a :: s.filter (fun x => key x == p)
      else s.filter (fun x => key x == p) := by
  induction s with
  | nil => simp [insertByDesc, List.filter_cons]
  | cons b t ih =>
    simp only [insertByDesc]
    split
    · simp [List.filter_cons]
    · rename_i hba
      have hab : key a < key b := not_le.mp hba
      by_cases hbp : key b = p
      · have hap : key a ≠ p := by omega
        simp [List.filter_cons, hbp, hap, ih]
      · simp [List.filter_cons, hbp, ih]

theorem filter_pySortDesc (key : α → Int) (p : Int) (l : List α) :
    (pySortDesc key l).filter (fun x => key x == p) =
      l.filter (fun x => key x == p) := by
  induction l with
  | nil => rfl
  | cons a t ih =>
    simp only [pySortDesc, filter_insertByDesc, ih, List.filter_cons]

theorem countP_insertByDesc (key : α → Int) (p : α → Bool) (a : α) (s : List α) :
    (insertByDesc key a s).countP p = (a :: s).countP p := by
  induction s with
  | nil => rfl
  | cons b t ih =>
    simp only [insertByDesc]
    split
    · rfl
    · simp only [List.countP_cons, ih]
      omega

theorem countP_pySortDesc (key : α → Int) (p : α → Bool) (l : List α) :
    (pySortDesc key l).countP p = l.countP p := by
  induction l with
  | nil => rfl
  | cons a t ih => simp [pySortDesc, countP_insertByDesc, List.countP_cons, ih]

/-! ## Lemmas about the planner -/

theorem get_best_plan_of_no_moves (st : GoalTiers)
    (h : st.short_term.filter (fun g => !g.move_sequence.isEmpty) = []) :
    get_best_plan st = noPlanSentinel ∨ get_best_plan st = noMovesSentinel := by
  simp only [get_best_plan, h]
  split
  · exact Or.inl rfl
  · rw [show pySortDesc Goal.priority ([] : List Goal) = [] from rfl]
    exact Or.inr rfl

theorem get_best_plan_eq_noMoves (st : GoalTiers)
    (hall : st.long_term ++ st.medium_term ++ st.short_term ≠ [])
    (h : st.short_term.filter (fun g => !g.move_sequence.isEmpty) = []) :
    get_best_plan st = noMovesSentinel := by
  simp [get_best_plan, h, pySortDesc]
  intro he
  have h0 : st.long_term ++ (st.medium_term ++ st.short_term) = [] :=
    (pySortDesc_eq_nil_iff _ _).mp he
  rw [← List.append_assoc] at h0
  exact absurd h0 hall

theorem get_best_plan_action_none (st : GoalTiers)
    (h : st.short_term.filter (fun g => !g.move_sequence.isEmpty) = []) :
    (get_best_plan st).immediate_action = none := by
  rcases get_best_plan_of_no_moves st h with he | he <;> rw [he] <;> rfl

theorem get_best_plan_of_filter_ne (st : GoalTiers)
    (h : st.short_term.filter (fun g => !g.move_sequence.isEmpty) ≠ []) :
    ∃ top rest,
      pySortDesc Goal.priority
          (st.short_term.filter (fun g => !g.move_sequence.isEmpty)) = top :: rest ∧
      get_best_plan st =
        ⟨plan_strategy st, some top.description, top.move_sequence,
          some (generate_reasoning (plan_strategy st) top.description)⟩ := by
  have hs : st.short_term ≠ [] := by
    intro he
    rw [he] at h
    exact h rfl
  have hall : st.long_term ++ st.medium_term ++ st.short_term ≠ [] := by
    simp [hs]
  have hsorted :
      (pySortDesc Goal.priority (st.long_term ++ st.medium_term ++ st.short_term)).isEmpty
        = false := by
    rw [List.isEmpty_eq_false]
    intro he
    exact hall ((pySortDesc_eq_nil_iff _ _).mp he)
  cases htop : pySortDesc Goal.priority
      (st.short_term.filter (fun g => !g.move_sequence.isEmpty)) with
  | nil => exact absurd ((pySortDesc_eq_nil_iff _ _).mp htop) h
  | cons top rest =>
    refine ⟨top, rest, rfl, ?_⟩
    simp only [get_best_plan, hsorted, htop]
    rfl

theorem get_best_plan_action_some (st : GoalTiers)
    (h : st.short_term.filter (fun g => !g.move_sequence.isEmpty) ≠ []) :
    ∃ a r, (get_best_plan st).immediate_action = some a ∧
      (get_best_plan st).reasoning = some r := by
  obtain ⟨top, rest, _, hplan⟩ := get_best_plan_of_filter_ne st h
  exact ⟨top.description, generate_reasoning (plan_strategy st) top.description,
    by rw [hplan], by rw [hplan]⟩

/-! ## Lemmas about the analyzer -/

theorem shortGoalsOf_ok (b : BoardModel) (infos : List PvInfo)
    (h : ∀ info ∈ infos, info.pv ≠ []) :
    ∀ i, ∃ gs, shortGoalsOf b infos i = .ok gs ∧ gs.length = infos.length ∧
      ∀ g ∈ gs, g.move_sequence ≠ [] := by
  induction infos with
  | nil => exact fun i => ⟨[], rfl, rfl, by simp⟩
  | cons info rest ih =>
    intro i
    have hpv : info.pv ≠ [] := h info (List.mem_cons_self info rest)
    obtain ⟨gs, hgs, hlen, hmv⟩ := ih (fun x hx => h x (List.mem_cons_of_mem info hx)) (i + 1)
    cases hc : info.pv with
    | nil => exact absurd hc hpv
    | cons m _ =>
      refine ⟨ChessGoal ("Play " ++ b.san m) (3 - (i : Int)) [m.uci] :: gs, ?_, by simp [hlen], ?_⟩
      · simp only [shortGoalsOf, hc, hgs]
      · intro g hg
        rcases List.mem_cons.mp hg with rfl | hg
        · simp [ChessGoal]
        · exact hmv g hg

theorem analyze_position_ok (orc : Oracles) (prev : GoalTiers) (fen : String)
    (hne : orc.analyseMulti (orc.board fen) ≠ [])
    (hpv : ∀ info ∈ orc.analyseMulti (orc.board fen), info.pv ≠ []) :
    ∃ tiers, analyze_position orc prev fen = .ok tiers ∧
      tiers.short_term ≠ [] ∧ ∀ g ∈ tiers.short_term, g.move_sequence ≠ [] := by
  obtain ⟨gs, hgs, hlen, hmv⟩ := shortGoalsOf_ok (orc.board fen) _ hpv 0
  cases hr : orc.analyseMulti (orc.board fen) with
  | nil => exact absurd hr hne
  | cons info0 rest =>
    rw [hr] at hgs hlen
    refine ⟨⟨identify_long_term_goals (orc.board fen) info0.score,
      identify_medium_term_goals (orc.board fen), gs⟩, ?_, ?_, hmv⟩
    · simp only [analyze_position, hr, hgs]
    · intro hnil
      simp only at hnil
      rw [hnil] at hlen
      simp at hlen

/-! ## Lemmas about the tactic scanner -/

theorem capture_tactics_mem (b : BoardModel) (m : Move) (cap att : Piece)
    (hc : b.is_capture m = true) (hto : b.piece_at m.to_sq = some cap)
    (hfrom : b.piece_at m.from_sq = some att)
    (hval : pieceValue att.ptype ≤ pieceValue cap.ptype) :
    ∀ ms cs, capture_tactics b ms = .ok cs → m ∈ ms →
      (⟨"Capture " ++ piece_name (some cap) ++ " with " ++ b.san m,
        [m.uci], pieceValue cap.ptype⟩ : Tactic) ∈ cs := by
  intro ms
  induction ms with
  | nil =>
    intro cs _ hm
    simp at hm
  | cons hd rest ih =>
    intro cs hcs hm
    rcases List.mem_cons.mp hm with rfl | hm
    · cases hrest : capture_tactics b rest with
      | error e => simp [capture_tactics, hc, hto, hfrom, hrest] at hcs
      | ok ts =>
        simp [capture_tactics, hc, hto, hfrom, hrest, hval] at hcs
        subst hcs
        exact List.mem_cons_self _ _
    · cases h1 : b.is_capture hd with
      | false =>
        simp [capture_tactics, h1] at hcs
        exact ih cs hcs hm
      | true =>
        cases hto2 : b.piece_at hd.to_sq with
        | none =>
          simp [capture_tactics, h1, hto2] at hcs
          exact ih cs hcs hm
        | some cap2 =>
          cases hfrom2 : b.piece_at hd.from_sq with
          | none => simp [capture_tactics, h1, hto2, hfrom2] at hcs
          | some att2 =>
            cases hrest : capture_tactics b rest with
            | error e => simp [capture_tactics, h1, hto2, hfrom2, hrest] at hcs
            | ok ts =>
              by_cases h2 : pieceValue att2.ptype ≤ pieceValue cap2.ptype
              · simp [capture_tactics, h1, hto2, hfrom2, hrest, h2] at hcs
                subst hcs
                exact List.mem_cons_of_mem _ (ih ts hrest hm)
              · simp [capture_tactics, h1, hto2, hfrom2, hrest, h2] at hcs
                subst hcs
                exact ih ts hrest hm

/-! ## Lemmas about the dispatcher -/

theorem dispatch_branch1 (orc : Oracles) (b : BoardModel) (tiers : GoalTiers)
    (q : String)
    (hcond : (pyContains q "best move" || pyContains q "what should i play" ||
      pyContains q "recommend") = true) :
    dispatch orc b tiers q = .error RErr.keyError ∨
    ∃ c r, dispatch orc b tiers q =
      .ok (.move_recommendation c r (some (get_best_plan tiers).description)) := by
  have hd : dispatch orc b tiers q =
      (match (get_best_plan tiers).immediate_action, (get_best_plan tiers).reasoning with
       | some content, some reasoning =>
         Except.ok (Response.move_recommendation content reasoning
           (some (get_best_plan tiers).description))
       | _, _ => Except.error RErr.keyError) := by
    simp [dispatch, hcond]
  rw [hd]
  cases (get_best_plan tiers).immediate_action with
  | none =>
    cases (get_best_plan tiers).reasoning with
    | none => exact Or.inl rfl
    | some r => exact Or.inl rfl
  | some c =>
    cases (get_best_plan tiers).reasoning with
    | none => exact Or.inl rfl
    | some r => exact Or.inr ⟨c, r, rfl⟩

/-! ## Claim theorems -/

/-- **C1**: `process_natural_language` always re-runs `analyze_position`
first, which clears and rebuilds all three goal tiers before any dispatch
branch reads them.  Consequently (i) the whole result is independent of the
tier state `prev` the network held before the call — no branch can observe
goals built for a previous position — and (ii) the tiers any successful
dispatch worked on are exactly the tiers `analyze_position` just built. -/
theorem C1_goal_tiers_always_fresh (orc : Oracles) (prev prev2 : GoalTiers)
    (fen query : String) :
    process_natural_language orc prev fen query =
      process_natural_language orc prev2 fen query ∧
    (∀ tiers resp,
      process_natural_language orc prev fen query = .ok (tiers, resp) →
      analyze_position orc prev fen = .ok tiers) := by
  constructor
  · rfl
  · intro tiers resp h
    simp only [process_natural_language] at h
    split at h
    · exact Except.noConfusion h
    · rename_i t ht
      split at h
      · exact Except.noConfusion h
      · rename_i r hr
        cases h
        exact ht

/-- Witness for C1 at a concrete oracle, position and query: the tiers a
successful call returns are the freshly analysed ones. -/
theorem C1_goal_tiers_always_fresh_witness :
    analyze_position sampleOracles emptyTiers "start" = .ok sampleTiers :=
  (C1_goal_tiers_always_fresh sampleOracles emptyTiers poorTiers "start" "best move").2
    sampleTiers sampleResp (by decide)

/-- **C6**: `_determine_position_type` always returns one of the five labels
and decides in first-match-wins order: center-pawn count ≤ 1 → Open,
center-pawn count ≥ 3 → Closed, ≤ 10 occupied squares → Endgame, move number
> 10 and half-move clock < 3 → Tactical, else Semi-open.  In particular
center-pawn count ≤ 1 yields "Open position" regardless of anything else. -/
theorem C6_position_type_classification (b : BoardModel) :
    (determine_position_type b = "Open position" ∨
     determine_position_type b = "Closed position" ∨
     determine_position_type b = "Endgame position" ∨
     determine_position_type b = "Tactical position" ∨
     determine_position_type b = "Semi-open position") ∧
    (center_pawn_count b ≤ 1 → determine_position_type b = "Open position") ∧
    (center_pawn_count b ≥ 3 → determine_position_type b = "Closed position") ∧
    (center_pawn_count b = 2 → occupiedCount b ≤ 10 →
      determine_position_type b = "Endgame position") ∧
    (center_pawn_count b = 2 → occupiedCount b > 10 →
      b.fullmove_number > 10 → b.halfmove_clock < 3 →
      determine_position_type b = "Tactical position") ∧
    (center_pawn_count b = 2 → occupiedCount b > 10 →
      ¬(b.fullmove_number > 10 ∧ b.halfmove_clock < 3) →
      determine_position_type b = "Semi-open position") := by
  refine ⟨?_, ?_, ?_, ?_, ?_, ?_⟩
  · simp only [determine_position_type]
    split
    · exact Or.inl rfl
    · split
      · exact Or.inr (Or.inl rfl)
      · split
        · exact Or.inr (Or.inr (Or.inl rfl))
        · split
          · exact Or.inr (Or.inr (Or.inr (Or.inl rfl)))
          · exact Or.inr (Or.inr (Or.inr (Or.inr rfl)))
  · intro h
    simp only [determine_position_type]
    rw [if_pos h]
  · intro h
    simp only [determine_position_type]
    rw [if_neg (by omega), if_pos h]
  · intro h2 h10
    simp only [determine_position_type]
    rw [if_neg (by omega), if_neg (by omega), if_pos h10]
  · intro h2 h10 hf hh
    have hcond : (decide (b.fullmove_number > 10) && decide (b.halfmove_clock < 3)) = true := by
      simp only [Bool.and_eq_true, decide_eq_true_eq]
      exact ⟨hf, hh⟩
    simp only [determine_position_type]
    rw [if_neg (by omega), if_neg (by omega), if_neg (by omega), if_pos hcond]
  · intro h2 h10 hnot
    have hcond : ¬ ((decide (b.fullmove_number > 10) && decide (b.halfmove_clock < 3)) = true) := by
      simp only [Bool.and_eq_true, decide_eq_true_eq]
      exact hnot
    simp only [determine_position_type]
    rw [if_neg (by omega), if_neg (by omega), if_neg (by omega), if_neg hcond]

/-- Witness for C6: the sample board has no central pawn, so the classifier
answers "Open position". -/
theorem C6_position_type_classification_witness :
    center_pawn_count sampleBoard ≤ 1 ∧
    determine_position_type sampleBoard = "Open position" :=
  ⟨by decide, (C6_position_type_classification sampleBoard).2.1 (by decide)⟩

/-- **C7**: in the endgame phase (≤ 10 occupied squares), an evaluation
string that does not parse as an integer (a mate score) raises no error:
the "Exchange pieces but not pawns" goal is simply skipped and "Activate
king and create passed pawns" is still emitted; an evaluation parsing to
more than 200 adds the exchange goal at priority 7. -/
theorem C7_endgame_eval_parse (b : BoardModel) (evaluation : String)
    (hend : occupiedCount b ≤ 10) :
    (pyInt evaluation = none →
      identify_long_term_goals b evaluation =
        [ChessGoal "Activate king and create passed pawns" 8 []]) ∧
    (∀ v, pyInt evaluation = some v → v > 200 →
      identify_long_term_goals b evaluation =
        [ChessGoal "Activate king and create passed pawns" 8 [],
         ChessGoal "Exchange pieces but not pawns" 7 []]) := by
  have h24 : ¬ occupiedCount b > 24 := by omega
  have h10 : ¬ occupiedCount b > 10 := by omega
  constructor
  · intro hnone
    simp only [identify_long_term_goals]
    rw [if_neg h24, if_neg h10, hnone]
  · intro v hv h200
    simp only [identify_long_term_goals]
    rw [if_neg h24, if_neg h10, hv]
    simp [h200]

/-- Witness for C7: the sample board is in the endgame phase; the mate
score `"#+3"` skips the exchange goal, the score `"+250"` adds it. -/
theorem C7_endgame_eval_parse_witness :
    occupiedCount sampleBoard ≤ 10 ∧
    identify_long_term_goals sampleBoard "#+3" =
      [ChessGoal "Activate king and create passed pawns" 8 []] ∧
    identify_long_term_goals sampleBoard "+250" =
      [ChessGoal "Activate king and create passed pawns" 8 [],
       ChessGoal "Exchange pieces but not pawns" 7 []] :=
  ⟨by decide,
   (C7_endgame_eval_parse sampleBoard "#+3" (by decide)).1 (by decide),
   (C7_endgame_eval_parse sampleBoard "+250" (by decide)).2 250 (by decide) (by decide)⟩

/-- **C8**: an empty position string makes `process_request` return the
error-tagged response immediately.  The right-hand side mentions neither the
oracles nor the tier state, so the equality holding for every `orc` and
`prev` expresses that the task network and the evaluation collaborator are
never invoked on this path. -/
theorem C8_empty_position_local_error (orc : Oracles) (prev : GoalTiers)
    (request fen : String) (h : fen.isEmpty = true) :
    process_request orc prev request fen =
      .ok (.direct (.error_resp
        "No chess position provided. Please provide a FEN string.")) := by
  simp only [process_request, h, if_true]

/-- Witness for C8 at the empty FEN string. -/
theorem C8_empty_position_local_error_witness :
    process_request sampleOracles emptyTiers "what should i play" "" =
      .ok (.direct (.error_resp
        "No chess position provided. Please provide a FEN string.")) :=
  C8_empty_position_local_error sampleOracles emptyTiers "what should i play" "" rfl

/-- **C9** (code bug): `_explain_move` computes `promotion_rank = 0` for a
black pawn and tests `square_rank(to) == promotion_rank - 1 == -1`, which no
square satisfies; so a black pawn stepping onto rank index 1 — one step away
from its promotion rank 0 — gets no "one step away from promotion" clause,
although the claim (and the clause's own wording) require it for either
colour.  Failing input: black pawn h3 plays h3h2 on `b9`. -/
theorem C9_black_pawn_promotion_clause_missing :
    b9.piece_at m9.from_sq = some ⟨false, PieceType.pawn⟩ ∧
    squareRank m9.to_sq = 1 ∧
    explain_move orc9 b9 m9 =
      .move_explanation "h2" "The move h2 repositions your black pawn." "0" "0" ∧
    pyContains "The move h2 repositions your black pawn."
      "one step away from promotion" = false := by
  refine ⟨by decide, by decide, by decide, by decide⟩

/-- **C2**: a query containing both "best move" and "strategy"
(case-insensitively, i.e. after the dispatcher lowercases it) is classified
by branch 1: (i) whatever response the call returns carries the
`move_recommendation` tag together with content, reasoning and strategy
fields — it is never a `strategy_advice`; and (ii) whenever the engine
answers with at least one candidate line (each carrying a move), the call
does return such a `move_recommendation`. -/
theorem C2_best_move_beats_strategy (orc : Oracles) (prev : GoalTiers)
    (fen query : String)
    (h1 : pyContains (pyLower query) "best move" = true)
    (h2 : pyContains (pyLower query) "strategy" = true) :
    (∀ tiers resp,
      process_natural_language orc prev fen query = .ok (tiers, resp) →
      ∃ c r s, resp = .move_recommendation c r (some s)) ∧
    (orc.analyseMulti (orc.board fen) ≠ [] →
     (∀ info ∈ orc.analyseMulti (orc.board fen), info.pv ≠ []) →
     ∃ tiers c r s, process_natural_language orc prev fen query =
       .ok (tiers, .move_recommendation c r (some s))) := by
  have hcond : (pyContains (pyLower query) "best move" ||
      pyContains (pyLower query) "what should i play" ||
      pyContains (pyLower query) "recommend") = true := by
    simp [h1]
  constructor
  · intro tiers resp h
    have ha : analyze_position orc prev fen = .ok tiers ∧
        dispatch orc (orc.board fen) tiers (pyLower query) = .ok resp := by
      simp only [process_natural_language] at h
      split at h
      · exact Except.noConfusion h
      · rename_i t ht
        split at h
        · exact Except.noConfusion h
        · rename_i r hr
          cases h
          exact ⟨ht, hr⟩
    rcases dispatch_branch1 orc (orc.board fen) tiers (pyLower query) hcond with
      hd | ⟨c, r', hd⟩
    · rw [ha.2] at hd
      exact Except.noConfusion hd
    · rw [ha.2] at hd
      cases hd
      exact ⟨c, r', (get_best_plan tiers).description, rfl⟩
  · intro hne hpv
    obtain ⟨tiers, ht, hsne, hmv⟩ := analyze_position_ok orc prev fen hne hpv
    have hfe : tiers.short_term.filter (fun g => !g.move_sequence.isEmpty)
        = tiers.short_term := by
      apply List.filter_eq_self.mpr
      intro g hg
      simpa using hmv g hg
    have hf : tiers.short_term.filter (fun g => !g.move_sequence.isEmpty) ≠ [] := by
      rw [hfe]
      exact hsne
    obtain ⟨top, rest, hsort, hplan⟩ := get_best_plan_of_filter_ne tiers hf
    have hd : dispatch orc (orc.board fen) tiers (pyLower query) =
        .ok (.move_recommendation top.description
          (generate_reasoning (plan_strategy tiers) top.description)
          (some (plan_strategy tiers))) := by
      simp [dispatch, hcond, hplan]
    refine ⟨tiers, top.description,
      generate_reasoning (plan_strategy tiers) top.description,
      plan_strategy tiers, ?_⟩
    simp only [process_natural_language, ht, hd]

/-- Witness for C2: a query with both keywords on the sample position. -/
theorem C2_best_move_beats_strategy_witness :
    ∃ tiers c r s,
      process_natural_language sampleOracles emptyTiers "start"
        "best move strategy" = .ok (tiers, .move_recommendation c r (some s)) :=
  (C2_best_move_beats_strategy sampleOracles emptyTiers "start"
    "best move strategy" (by decide) (by decide)).2 (by decide) (by decide)

/-- **C3**: `get_best_plan` returns the "No clear plan identified" sentinel
iff all three tiers are empty; otherwise, if no short-term goal has a
non-empty move sequence it returns the "No clear moves identified" sentinel;
otherwise its moves are exactly the move sequence of the first
highest-priority short-term goal with a non-empty move sequence — never an
empty sequence. -/
theorem C3_get_best_plan_characterisation (st : GoalTiers) :
    (get_best_plan st = noPlanSentinel ↔
      st.long_term = [] ∧ st.medium_term = [] ∧ st.short_term = []) ∧
    ((st.long_term ≠ [] ∨ st.medium_term ≠ [] ∨ st.short_term ≠ []) →
      st.short_term.filter (fun g => !g.move_sequence.isEmpty) = [] →
      get_best_plan st = noMovesSentinel) ∧
    (st.short_term.filter (fun g => !g.move_sequence.isEmpty) ≠ [] →
      ∃ g l₁ l₂,
        st.short_term.filter (fun x => !x.move_sequence.isEmpty) = l₁ ++ g :: l₂ ∧
        (∀ x ∈ l₁, x.priority < g.priority) ∧
        (∀ x ∈ st.short_term.filter (fun x => !x.move_sequence.isEmpty),
          x.priority ≤ g.priority) ∧
        (get_best_plan st).moves = g.move_sequence ∧ g.move_sequence ≠ []) := by
  refine ⟨?_, ?_, ?_⟩
  · by_cases hall : st.long_term ++ st.medium_term ++ st.short_term = []
    · have h3 : st.long_term = [] ∧ st.medium_term = [] ∧ st.short_term = [] := by
        simpa [List.append_eq_nil] using hall
      have hplan : get_best_plan st = noPlanSentinel := by
        simp [get_best_plan, hall, pySortDesc]
      exact ⟨fun _ => h3, fun _ => hplan⟩
    · have hne3 : ¬(st.long_term = [] ∧ st.medium_term = [] ∧ st.short_term = []) := by
        rintro ⟨ha, hb, hc⟩
        exact hall (by simp [ha, hb, hc])
      have hplan : get_best_plan st ≠ noPlanSentinel := by
        by_cases hf : st.short_term.filter (fun g => !g.move_sequence.isEmpty) = []
        · rw [get_best_plan_eq_noMoves st hall hf]
          intro he
          exact absurd (congrArg Plan.description he) (by decide)
        · obtain ⟨top, rest, _, hp⟩ := get_best_plan_of_filter_ne st hf
          rw [hp]
          intro he
          exact Option.noConfusion (congrArg Plan.immediate_action he)
      exact ⟨fun h => absurd h hplan, fun h => absurd h hne3⟩
  · intro hne hf
    refine get_best_plan_eq_noMoves st ?_ hf
    intro he
    have h3 : st.long_term = [] ∧ st.medium_term = [] ∧ st.short_term = [] := by
      simpa [List.append_eq_nil] using he
    rcases hne with h | h | h
    · exact h h3.1
    · exact h h3.2.1
    · exact h h3.2.2
  · intro hf
    obtain ⟨top, rest, hsort, hplan⟩ := get_best_plan_of_filter_ne st hf
    have hhead : firstMaxBy Goal.priority
        (st.short_term.filter (fun g => !g.move_sequence.isEmpty)) = some top := by
      rw [← head?_pySortDesc, hsort]
      rfl
    obtain ⟨l₁, l₂, heq, hlt, hle⟩ := firstMaxBy_spec _ _ _ hhead
    have htop_mem : top ∈ st.short_term.filter (fun g => !g.move_sequence.isEmpty) := by
      rw [heq]
      exact List.mem_append_right _ (List.mem_cons_self _ _)
    have hmv := (List.mem_filter.mp htop_mem).2
    refine ⟨top, l₁, l₂, heq, hlt, hle, by rw [hplan], ?_⟩
    intro hnil
    rw [hnil] at hmv
    simp at hmv

/-- Witness for C3: the tiers `tiers3` have a priority tie among their
move-bearing short goals; the plan takes the earlier one. -/
theorem C3_get_best_plan_characterisation_witness :
    tiers3.short_term.filter (fun g => !g.move_sequence.isEmpty) ≠ [] ∧
    ∃ g l₁ l₂,
      tiers3.short_term.filter (fun x => !x.move_sequence.isEmpty) = l₁ ++ g :: l₂ ∧
      (∀ x ∈ l₁, x.priority < g.priority) ∧
      (∀ x ∈ tiers3.short_term.filter (fun x => !x.move_sequence.isEmpty),
        x.priority ≤ g.priority) ∧
      (get_best_plan tiers3).moves = g.move_sequence ∧ g.move_sequence ≠ [] :=
  ⟨by decide, (C3_get_best_plan_characterisation tiers3).2.2 (by decide)⟩

/-- **C4** (counterexample): at the position `k7/8/8/4Pp2/8/8/8/K7 w - f6`
the en-passant capture e5xf6 is a legal move that `is_capture` reports as a
capture; the captured piece (the f5 pawn) has value 1 ≥ 1 = the capturing
pawn's value, yet `_identify_tactics` emits NO tactic at all: the code looks
up `piece_at(to_square)`, which is empty for en passant, and the
`if captured_piece:` guard silently skips the move.  This refutes the claim
that every materially favourable-or-equal capture yields a tactic. -/
theorem C4_en_passant_counterexample :
    epMove ∈ epBoard.legal_moves ∧
    epBoard.is_capture epMove = true ∧
    epBoard.captured_piece epMove = some ⟨false, PieceType.pawn⟩ ∧
    epBoard.piece_at epMove.from_sq = some ⟨true, PieceType.pawn⟩ ∧
    pieceValue PieceType.pawn ≤ pieceValue PieceType.pawn ∧
    identify_tactics epBoard = .ok [] := by
  refine ⟨by decide, by decide, by decide, by decide, by decide, by decide⟩

/-- **C4** (amended): for every legal capture whose destination square is
occupied by the captured piece (every capture except en passant), if the
captured piece's value is ≥ the capturing piece's value, `_identify_tactics`
emits a tactic for that move with priority equal to the captured piece's
value. -/
theorem C4_favourable_capture_tactic (b : BoardModel) (m : Move)
    (cap att : Piece) (ts : List Tactic)
    (hm : m ∈ b.legal_moves) (hcap : b.is_capture m = true)
    (hto : b.piece_at m.to_sq = some cap) (hfrom : b.piece_at m.from_sq = some att)
    (hval : pieceValue att.ptype ≤ pieceValue cap.ptype)
    (hts : identify_tactics b = .ok ts) :
    ∃ t ∈ ts,
      t.description = "Capture " ++ piece_name (some cap) ++ " with " ++ b.san m ∧
      t.moves = [m.uci] ∧ t.priority = pieceValue cap.ptype := by
  cases hcs : capture_tactics b b.legal_moves with
  | error e => simp [identify_tactics, hcs] at hts
  | ok cs =>
    have hmem := capture_tactics_mem b m cap att hcap hto hfrom hval
      b.legal_moves cs hcs hm
    have hts' : ts = pySortDesc Tactic.priority (check_tactics b ++ cs) := by
      simp only [identify_tactics, hcs] at hts
      cases hts
      rfl
    subst hts'
    refine ⟨⟨"Capture " ++ piece_name (some cap) ++ " with " ++ b.san m,
      [m.uci], pieceValue cap.ptype⟩, ?_, rfl, rfl, rfl⟩
    rw [mem_pySortDesc]
    exact List.mem_append_right _ hmem

/-- Witness for the amended C4: pawn takes knight on `capBoard`. -/
theorem C4_favourable_capture_tactic_witness :
    ∃ t ∈ [(⟨"Capture black knight with exd5", ["e4d5"], 3⟩ : Tactic)],
      t.description = "Capture " ++ piece_name (some ⟨false, PieceType.knight⟩) ++
        " with " ++ capBoard.san capMove ∧
      t.moves = [capMove.uci] ∧ t.priority = pieceValue PieceType.knight :=
  C4_favourable_capture_tactic capBoard capMove ⟨false, .knight⟩ ⟨true, .pawn⟩
    [⟨"Capture black knight with exd5", ["e4d5"], 3⟩]
    (by decide) (by decide) (by decide) (by decide) (by decide) (by decide)

/-- **C5** (counterexample): at the position `8/6k1/8/4Pp2/8/8/8/K7 w - f6`
the en-passant capture e5xf6 both gives check (the pawn lands on f6 next to
the g7 king) and is a materially equal capture (the captured f5 pawn has
value 1 ≥ 1 = the capturing pawn's value), yet `_identify_tactics` emits
only ONE entry for it — the check tactic: the capture pass reads
`piece_at(to_square)`, empty for en passant, and skips the move.  This
refutes the claim that such a move always appears as two separate Tactic
entries. -/
theorem C5_en_passant_check_counterexample :
    epcMove ∈ epcBoard.legal_moves ∧
    epcBoard.gives_check epcMove = true ∧
    epcBoard.is_capture epcMove = true ∧
    epcBoard.captured_piece epcMove = some ⟨false, PieceType.pawn⟩ ∧
    epcBoard.piece_at epcMove.from_sq = some ⟨true, PieceType.pawn⟩ ∧
    pieceValue PieceType.pawn ≤ pieceValue PieceType.pawn ∧
    identify_tactics epcBoard = .ok [⟨"Check with exf6+", ["e5f6"], 5⟩] ∧
    ([(⟨"Check with exf6+", ["e5f6"], 5⟩ : Tactic)]).countP
      (fun t => t.moves == ["e5f6"]) = 1 := by
  refine ⟨by decide, by decide, by decide, by decide, by decide, by decide,
    by decide, by decide⟩

/-- **C5** (amended): `_identify_tactics` output is sorted non-increasing by
priority; equal-priority ties keep discovery order (the discovery list is
the whole check pass followed by the whole capture pass, so all check
tactics at a priority precede all capture tactics at that priority); and a
single move that gives check and is a favourable-or-equal capture whose
destination square is occupied by the captured piece (every such capture
except en passant) contributes two separate entries. -/
theorem C5_tactics_sorted_stable_double (b : BoardModel) (ts cs : List Tactic)
    (hcs : capture_tactics b b.legal_moves = .ok cs)
    (hts : identify_tactics b = .ok ts) :
    ts.Pairwise (fun t₁ t₂ => t₂.priority ≤ t₁.priority) ∧
    (∀ p : Int, ts.filter (fun t => t.priority == p) =
      (check_tactics b ++ cs).filter (fun t => t.priority == p)) ∧
    (∀ m ∈ b.legal_moves, b.gives_check m = true → b.is_capture m = true →
      ∀ cap att, b.piece_at m.to_sq = some cap → b.piece_at m.from_sq = some att →
        pieceValue att.ptype ≤ pieceValue cap.ptype →
        (⟨"Check with " ++ b.san m, [m.uci], 5⟩ : Tactic) ∈ ts ∧
        (⟨"Capture " ++ piece_name (some cap) ++ " with " ++ b.san m,
          [m.uci], pieceValue cap.ptype⟩ : Tactic) ∈ ts ∧
        2 ≤ ts.countP (fun t => t.moves == [m.uci])) := by
  have hts' : ts = pySortDesc Tactic.priority (check_tactics b ++ cs) := by
    simp only [identify_tactics, hcs] at hts
    cases hts
    rfl
  subst hts'
  refine ⟨pairwise_pySortDesc _ _, fun p => filter_pySortDesc _ p _, ?_⟩
  intro m hm hchk hcap cap att hto hfrom hval
  have hcheck_mem : (⟨"Check with " ++ b.san m, [m.uci], 5⟩ : Tactic)
      ∈ check_tactics b := by
    simp only [check_tactics]
    exact List.mem_map_of_mem _ (List.mem_filter.mpr ⟨hm, hchk⟩)
  have hcap_mem := capture_tactics_mem b m cap att hcap hto hfrom hval
    b.legal_moves cs hcs hm
  refine ⟨?_, ?_, ?_⟩
  · rw [mem_pySortDesc]
    exact List.mem_append_left _ hcheck_mem
  · rw [mem_pySortDesc]
    exact List.mem_append_right _ hcap_mem
  · rw [countP_pySortDesc, List.countP_append]
    have hp1 : 0 < (check_tactics b).countP (fun t => t.moves == [m.uci]) :=
      List.countP_pos_iff.mpr ⟨_, hcheck_mem, by simp⟩
    have hp2 : 0 < cs.countP (fun t => t.moves == [m.uci]) :=
      List.countP_pos_iff.mpr ⟨_, hcap_mem, by simp⟩
    omega

/-- Witness for C5: Rxd8+ on `qxBoard` is both a check and an equal capture;
the scanner reports it twice, check entry first, output sorted. -/
theorem C5_tactics_sorted_stable_double_witness :
    qxTactics.Pairwise (fun t₁ t₂ => t₂.priority ≤ t₁.priority) ∧
    (⟨"Check with Rxd8+", ["d5d8"], 5⟩ : Tactic) ∈ qxTactics ∧
    (⟨"Capture black rook with Rxd8+", ["d5d8"], 5⟩ : Tactic) ∈ qxTactics ∧
    2 ≤ qxTactics.countP (fun t => t.moves == ["d5d8"]) := by
  have h := C5_tactics_sorted_stable_double qxBoard qxTactics
    [⟨"Capture black rook with Rxd8+", ["d5d8"], 5⟩] (by decide) (by decide)
  obtain ⟨hc1, hc2, hcnt⟩ := h.2.2 qxMove (by decide) (by decide) (by decide)
    ⟨false, .rook⟩ ⟨true, .rook⟩ (by decide) (by decide) (by decide)
  exact ⟨h.1, hc1, hc2, hcnt⟩

/-- **C10**: in the two `move_recommendation` branches (branch 1 and the
default branch) the dispatcher reads `plan["immediate_action"]` and
`plan["reasoning"]` unguarded: when no short-term goal carries a non-empty
move sequence (so `get_best_plan` returned a sentinel without those keys)
the dispatch fails with a missing-key error instead of returning a tagged
response, and it succeeds exactly when such a goal exists. -/
theorem C10_sentinel_plan_key_error (orc : Oracles) (b : BoardModel)
    (tiers : GoalTiers) (q : String) :
    ((pyContains q "best move" || pyContains q "what should i play" ||
        pyContains q "recommend") = true →
      ((dispatch orc b tiers q = .error RErr.keyError ↔
          tiers.short_term.filter (fun g => !g.move_sequence.isEmpty) = []) ∧
       (tiers.short_term.filter (fun g => !g.move_sequence.isEmpty) ≠ [] →
         ∃ c r, dispatch orc b tiers q =
           .ok (.move_recommendation c r (some (get_best_plan tiers).description))))) ∧
    ((pyContains q "best move" || pyContains q "what should i play" ||
        pyContains q "recommend") = false →
     (pyContains q "strategy" || pyContains q "plan") = false →
     (pyContains q "tactic" || pyContains q "opportunity") = false →
     (pyContains q "evaluate" || pyContains q "assessment" ||
        pyContains q "position") = false →
     (pyContains q "explain" && pyContains q "move") = false →
      ((dispatch orc b tiers q = .error RErr.keyError ↔
          tiers.short_term.filter (fun g => !g.move_sequence.isEmpty) = []) ∧
       (tiers.short_term.filter (fun g => !g.move_sequence.isEmpty) ≠ [] →
         ∃ c r, dispatch orc b tiers q =
           .ok (.move_recommendation c r none)))) := by
  constructor
  · intro hcond
    constructor
    · constructor
      · intro he
        by_contra hf
        obtain ⟨top, rest, _, hp⟩ := get_best_plan_of_filter_ne tiers hf
        have hd : dispatch orc b tiers q =
            .ok (.move_recommendation top.description
              (generate_reasoning (plan_strategy tiers) top.description)
              (some (plan_strategy tiers))) := by
          simp [dispatch, hcond, hp]
        rw [hd] at he
        exact Except.noConfusion he
      · intro hf
        have hnone := get_best_plan_action_none tiers hf
        simp [dispatch, hcond, hnone]
    · intro hf
      obtain ⟨top, rest, _, hp⟩ := get_best_plan_of_filter_ne tiers hf
      refine ⟨top.description,
        generate_reasoning (plan_strategy tiers) top.description, ?_⟩
      simp [dispatch, hcond, hp]
  · intro h1 h2 h3 h4 h5
    constructor
    · constructor
      · intro he
        by_contra hf
        obtain ⟨top, rest, _, hp⟩ := get_best_plan_of_filter_ne tiers hf
        have hd : dispatch orc b tiers q =
            .ok (.move_recommendation top.description
              (generate_reasoning (plan_strategy tiers) top.description) none) := by
          simp [dispatch, h1, h2, h3, h4, h5, hp]
        rw [hd] at he
        exact Except.noConfusion he
      · intro hf
        have hnone := get_best_plan_action_none tiers hf
        simp [dispatch, h1, h2, h3, h4, h5, hnone]
    · intro hf
      obtain ⟨top, rest, _, hp⟩ := get_best_plan_of_filter_ne tiers hf
      refine ⟨top.description,
        generate_reasoning (plan_strategy tiers) top.description, ?_⟩
      simp [dispatch, h1, h2, h3, h4, h5, hp]

/-- Witness for C10: on tier states without a move-bearing short goal both
recommendation branches raise the missing-key error; with one they answer. -/
theorem C10_sentinel_plan_key_error_witness :
    dispatch sampleOracles sampleBoard poorTiers "best move"
      = .error RErr.keyError ∧
    dispatch sampleOracles sampleBoard poorTiers "hello there"
      = .error RErr.keyError ∧
    ∃ c r, dispatch sampleOracles sampleBoard tiers3 "best move" =
      .ok (.move_recommendation c r (some (get_best_plan tiers3).description)) :=
  ⟨((C10_sentinel_plan_key_error sampleOracles sampleBoard poorTiers
      "best move").1 (by decide)).1.mpr (by decide),
   ((C10_sentinel_plan_key_error sampleOracles sampleBoard poorTiers
      "hello there").2 (by decide) (by decide) (by decide) (by decide)
      (by decide)).1.mpr (by decide),
   ((C10_sentinel_plan_key_error sampleOracles sampleBoard tiers3
      "best move").1 (by decide)).2 (by decide)⟩

end BrainMate
